import Mathlib

/-!
Shallow embedding of the OAuth client-registry / delegated-access subsystem
of the `lapse` web application (tRPC router `developer.ts`, the scope-aware
`protectedProcedure` middleware in `trpc.ts`, and the OBO token verifier).

Conventions of the embedding:
* the relational store is a pair of lists (service clients, service grants);
  Prisma `findFirst` / `findUnique` become `List.find?`, `update` becomes a
  `List.map` that rewrites the matching row;
* timestamps are `Nat`; a Prisma nullable `DateTime` column is `Option Nat`
  (`none` = SQL NULL);
* a URL is a record carrying its parsed `hostname` (what `new URL(u).hostname`
  extracts in the source) together with the remainder of its text;
* `apiOk` / `apiErr` results become the `ApiResult` sum, carrying the error
  code and human message exactly as the source builds them.
-/

/-- Trust level of a registered service client (`OAuthTrustLevelSchema`). -/
inductive TrustLevel where
  | UNTRUSTED
  | TRUSTED
deriving DecidableEq, Repr

/-- Absolute URL, modelled as its parsed hostname plus the remaining text.
The source inspects URLs only through `new URL(u).hostname`. -/
structure Url where
  hostname : String
  rest : String
deriving DecidableEq, Repr

/-- Relational `User` row (only the fields the developer router reads). -/
structure User where
  id : String
  handle : String
  displayName : String
deriving DecidableEq, Repr

/-- Relational `ServiceClient` row. The secret is stored only as a derived
verifier (`secretVerifier`), never in plaintext; the column itself is not
under src/, its presence is taken from the spec's data model. -/
structure ServiceClient where
  id : String
  name : String
  description : String
  homepageUrl : Url
  iconUrl : String
  redirectUris : List Url
  scopes : List String
  trustLevel : TrustLevel
  clientId : String
  secretVerifier : String
  createdByUserId : String
  createdAt : Nat
  revokedAt : Option Nat
deriving DecidableEq, Repr

/-- A `ServiceClient` row joined with its owning user, as fetched by
`include: { createdByUser: true }` (source type `DbOAuthApp`). -/
structure DbOAuthApp extends ServiceClient where
  createdByUser : User
deriving DecidableEq, Repr

/-- Relational `ServiceGrant` row. -/
structure ServiceGrant where
  id : String
  userId : String
  serviceClientId : String
  scopes : List String
  createdAt : Nat
  lastUsedAt : Option Nat
  revokedAt : Option Nat
deriving DecidableEq, Repr

/-- The relational store: the two tables the developer router touches. -/
structure DbState where
  serviceClients : List DbOAuthApp
  serviceGrants : List ServiceGrant
deriving DecidableEq, Repr

/-- Result of a router mutation/query: `apiOk` payload or `apiErr` with an
error code and a human-readable message. -/
inductive ApiResult (α : Type) where
  | ok (data : α)
  | err (code : String) (message : String)
deriving DecidableEq, Repr

/-- Error code of a result, `none` on success. -/
def ApiResult.errCode {α : Type} : ApiResult α → Option String
  | .ok _ => none
  | .err c _ => some c

/-- Error message of a result, `none` on success. -/
def ApiResult.errMessage {α : Type} : ApiResult α → Option String
  | .ok _ => none
  | .err _ m => some m

/-- Whether a result is an `apiOk`. -/
def ApiResult.isOk {α : Type} : ApiResult α → Bool
  | .ok _ => true
  | .err _ _ => false

/-- The `createdBy` sub-object of the app DTO. -/
structure CreatedBy where
  id : String
  handle : String
  displayName : String
deriving DecidableEq, Repr

/-- Public app payload (source type `OAuthApp` / `OAuthAppSchema`): note it
has no field for the secret or its verifier. -/
structure OAuthApp where
  id : String
  name : String
  description : String
  homepageUrl : Url
  iconUrl : String
  redirectUris : List Url
  scopes : List String
  trustLevel : TrustLevel
  clientId : String
  createdBy : CreatedBy
  createdAt : Nat
deriving DecidableEq, Repr

/-- Converts a database service-client row (with its owner) to the public
app payload (source function `dtoOAuthApp`). -/
def dtoOAuthApp (entity : DbOAuthApp) : OAuthApp :=
  { id := entity.id
    name := entity.name
    description := entity.description
    homepageUrl := entity.homepageUrl
    iconUrl := entity.iconUrl
    redirectUris := entity.redirectUris
    scopes := entity.scopes
    trustLevel := entity.trustLevel
    clientId := entity.clientId
    createdBy :=
      { id := entity.createdByUser.id
        handle := entity.createdByUser.handle
        displayName := entity.createdByUser.displayName }
    createdAt := entity.createdAt }

/-- The fixed scope catalog (`getAllOAuthScopes` of `@/shared/oauthScopes`),
enumerated in `restOpenapi.ts` as the oauth2 security-scheme scopes. -/
def getAllOAuthScopes : List String :=
  ["timelapse:read", "timelapse:write",
   "user:read", "user:write",
   "snapshot:read", "snapshot:write",
   "comment:read", "comment:write",
   "global:read"]

/-- Deduplication keeping the first occurrence of each element, with an
accumulator of already-seen elements. -/
def dedupeKeepFirstGo {α : Type} [DecidableEq α] (seen : List α) : List α → List α
  | [] => []
  | x :: xs =>
    if x ∈ seen then dedupeKeepFirstGo seen xs
    else x :: dedupeKeepFirstGo (x :: seen) xs

/-- Deduplication keeping the first occurrence of each element. -/
def dedupeKeepFirst {α : Type} [DecidableEq α] (l : List α) : List α :=
  dedupeKeepFirstGo [] l

/-- Whitespace trimming of a scope string, written over the character list
so it evaluates in the kernel (JavaScript `String.prototype.trim`). -/
def trimString (s : String) : String :=
  String.mk (((s.data.dropWhile Char.isWhitespace).reverse.dropWhile Char.isWhitespace).reverse)

/-- Modelled from the spec: `normalizeScopes` of
`@/server/services/serviceClientService` (module not under src/) — "normalize
(trim, dedupe, preserve first-seen order)". -/
def normalizeScopes (scopes : List String) : List String :=
  dedupeKeepFirst (scopes.map trimString)

/-- Modelled from the spec: `normalizeRedirectUris` of
`@/server/services/serviceClientService` (module not under src/) —
deduplication preserving first-seen order ("ordered set of absolute URLs"). -/
def normalizeRedirectUris (uris : List Url) : List Url :=
  dedupeKeepFirst uris

/-- Modelled from the spec: the derived verifier stored in place of a
plaintext secret ("store only a derived verifier, e.g. a salted hash");
the hash itself is abstracted as an injective tagging. -/
def secretVerifierOf (plaintext : String) : String :=
  "verifier:" ++ plaintext

/-- Per-request context built by `createContext` in `trpc.ts` /
`[...trpc].ts`: authenticated user (if any), effective OAuth scopes, and the
acting service client for delegated (OBO) requests. -/
structure ReqContext where
  user : Option User
  scopes : List String
  actor : Option ServiceClient
deriving DecidableEq, Repr

/-- Outcome of the `protectedProcedure` middleware. -/
inductive AuthOutcome where
  | unauthorized
  | forbidden
  | allowed (scopes : List String)
deriving DecidableEq, Repr

/-- Whether the middleware lets the request through. -/
def AuthOutcome.isAllowed : AuthOutcome → Bool
  | .allowed _ => true
  | _ => false

/-- The scope-aware `protectedProcedure` middleware of `trpc.ts`: rejects
unauthenticated requests; when the operation declares required scopes and the
context carries a non-empty scope list, rejects if any required scope is
missing from the context's scopes. -/
def scopeMiddleware (requiredScopes : List String) (ctx : ReqContext) : AuthOutcome :=
  let scopes := ctx.scopes
  if ctx.user.isNone then .unauthorized
  else if requiredScopes.length > 0 && scopes.length > 0 then
    let missingScopes := requiredScopes.filter (fun s => !(scopes.contains s))
    if missingScopes.length > 0 then .forbidden
    else .allowed scopes
  else .allowed scopes

/-- Lookup used by `rotateAppSecret`, `updateApp` and `revokeApp`:
`findFirst({ where: { id, createdByUserId, revokedAt: null } })`. -/
def lookupOwnedActive (st : DbState) (uid : String) (id : String) : Option DbOAuthApp :=
  st.serviceClients.find? (fun c => c.id == id && c.createdByUserId == uid && c.revokedAt.isNone)

/-- The `rotateAppSecret` mutation: finds a non-revoked app with the given id
owned by the caller (else NOT_FOUND), then rotates its secret verifier and
returns the fresh plaintext secret once. `rotateServiceClientSecret` itself
lives in the service module (not under src/) and is modelled from the spec:
the old verifier is replaced atomically by the verifier of the fresh secret. -/
def rotateAppSecret (st : DbState) (uid : String) (id : String) (freshSecret : String) :
    ApiResult String × DbState :=
  match lookupOwnedActive st uid id with
  | none => (.err "NOT_FOUND" ("App with ID " ++ id ++ " not found."), st)
  | some app =>
    let st' := { st with serviceClients :=
      st.serviceClients.map (fun c =>
        if c.id == app.id then { c with secretVerifier := secretVerifierOf freshSecret } else c) }
    (.ok freshSecret, st')

/-- Input of `updateApp`: the target id plus the optional fields of the
partial update (`undefined` in the source becomes `none`). -/
structure UpdateAppInput where
  id : String
  name : Option String := none
  description : Option String := none
  homepageUrl : Option Url := none
  iconUrl : Option String := none
  redirectUris : Option (List Url) := none
  scopes : Option (List String) := none
deriving DecidableEq, Repr

/-- Unknown entries of a requested scope list: the normalized scopes absent
from the catalog (`requestedScopes.filter(scope => !validScopes.has(scope))`
in the source, computed identically by `createApp` and `updateApp`). -/
def invalidScopesOf (requested : List String) : List String :=
  (normalizeScopes requested).filter (fun s => !(getAllOAuthScopes.contains s))

/-- Redirect URIs whose host differs from the homepage host
(`redirectUris.filter(uri => new URL(uri).hostname !== homepageHost)`). -/
def mismatchedOf (homepageUrl : Url) (redirectUris : List Url) : List Url :=
  redirectUris.filter (fun u => u.hostname != homepageUrl.hostname)

/-- The row resulting from `updateApp`'s `database.serviceClient.update`
call: fields left `undefined` by the caller stay unchanged; supplied redirect
URIs are stored normalized. -/
def updatedClientRow (app : DbOAuthApp) (inp : UpdateAppInput)
    (normalizedScopes : Option (List String)) : DbOAuthApp :=
  { app with
    name := inp.name.getD app.name
    description := inp.description.getD app.description
    homepageUrl := inp.homepageUrl.getD app.homepageUrl
    iconUrl := inp.iconUrl.getD app.iconUrl
    redirectUris := (inp.redirectUris.map normalizeRedirectUris).getD app.redirectUris
    scopes := normalizedScopes.getD app.scopes }

/-- The tail of `updateApp` once the scope validation passed: the merged
homepage/redirect host check (run only when either field is supplied),
followed by the row update. -/
def updateAppApply (st : DbState) (app : DbOAuthApp) (inp : UpdateAppInput)
    (normalizedScopes : Option (List String)) : ApiResult OAuthApp × DbState :=
  let homepageUrl := inp.homepageUrl.getD app.homepageUrl
  let redirectUris := inp.redirectUris.getD app.redirectUris
  if (inp.homepageUrl.isSome ∨ inp.redirectUris.isSome) ∧
      0 < (mismatchedOf homepageUrl redirectUris).length then
    (.err "ERROR" "Redirect URIs must match the homepage domain.", st)
  else
    let updated : DbOAuthApp := updatedClientRow app inp normalizedScopes
    let st' := { st with serviceClients :=
      st.serviceClients.map (fun c => if c.id == app.id then updated else c) }
    (.ok (dtoOAuthApp updated), st')

/-- The `updateApp` mutation, translated clause by clause from the source:
owner-scoped lookup of a non-revoked app (else NOT_FOUND); scope-catalog
validation of the normalized requested scopes when scopes are supplied (else
an ERROR listing every unknown scope); merged homepage/redirect host
validation when either field is supplied (else a fixed ERROR); finally the
row update, leaving unsupplied fields unchanged. -/
def updateApp (st : DbState) (uid : String) (inp : UpdateAppInput) :
    ApiResult OAuthApp × DbState :=
  match lookupOwnedActive st uid inp.id with
  | none => (.err "NOT_FOUND" ("App with ID " ++ inp.id ++ " not found."), st)
  | some app =>
    match inp.scopes with
    | none => updateAppApply st app inp none
    | some ss =>
      if 0 < (invalidScopesOf ss).length then
        (.err "ERROR" ("Unknown scopes: " ++ String.intercalate ", " (invalidScopesOf ss)), st)
      else updateAppApply st app inp (some (normalizeScopes ss))

/-- The `revokeApp` mutation: owner-scoped lookup of a non-revoked app (else
NOT_FOUND), then an update that sets only `revokedAt` to the current time. -/
def revokeApp (st : DbState) (uid : String) (id : String) (now : Nat) :
    ApiResult Unit × DbState :=
  match lookupOwnedActive st uid id with
  | none => (.err "NOT_FOUND" ("App with ID " ++ id ++ " not found."), st)
  | some _ =>
    let st' := { st with serviceClients :=
      st.serviceClients.map (fun c => if c.id == id then { c with revokedAt := some now } else c) }
    (.ok (), st')

/-- Input of `createApp` (after zod parsing; `description` defaults to ""). -/
structure CreateAppInput where
  name : String
  description : String
  homepageUrl : Url
  iconUrl : String
  redirectUris : List Url
  scopes : List String
deriving DecidableEq, Repr

/-- Fresh values consumed by client creation: generated row id, public client
id, plaintext secret, and the creation timestamp. -/
structure FreshClient where
  id : String
  clientId : String
  clientSecret : String
  now : Nat
deriving DecidableEq, Repr

/-- The row inserted by `createServiceClient` on successful creation: the
validated, normalized fields, the derived secret verifier, and the default
UNTRUSTED trust level (clients start untrusted per the spec's trust model). -/
def createdClientRow (owner : User) (inp : CreateAppInput) (fr : FreshClient) : DbOAuthApp :=
  { id := fr.id
    name := inp.name
    description := inp.description
    homepageUrl := inp.homepageUrl
    iconUrl := inp.iconUrl
    redirectUris := normalizeRedirectUris inp.redirectUris
    scopes := normalizeScopes inp.scopes
    trustLevel := .UNTRUSTED
    clientId := fr.clientId
    secretVerifier := secretVerifierOf fr.clientSecret
    createdByUserId := owner.id
    createdAt := fr.now
    revokedAt := none
    createdByUser := owner }

/-- The `createApp` mutation, translated clause by clause from the source:
scope-catalog validation of the normalized requested scopes (else an ERROR
listing every unknown scope); homepage/redirect host validation over the
normalized redirect URIs (else a fixed ERROR); then `createServiceClient`
(service module not under src/, modelled from the spec: inserts the row with
the derived secret verifier and returns the plaintext secret exactly once). -/
def createApp (st : DbState) (owner : User) (inp : CreateAppInput) (fr : FreshClient) :
    ApiResult (OAuthApp × String) × DbState :=
  if 0 < (invalidScopesOf inp.scopes).length then
    (.err "ERROR" ("Unknown scopes: " ++ String.intercalate ", " (invalidScopesOf inp.scopes)), st)
  else if 0 < (mismatchedOf inp.homepageUrl (normalizeRedirectUris inp.redirectUris)).length then
    (.err "ERROR" "Redirect URIs must match the homepage domain.", st)
  else
    let client : DbOAuthApp := createdClientRow owner inp fr
    (.ok (dtoOAuthApp client, fr.clientSecret),
     { st with serviceClients := st.serviceClients ++ [client] })

/-- The administrative `updateAppTrustLevel` mutation: `findUnique` by id
alone — no owner filter and no `revokedAt: null` filter — NOT_FOUND only when
no row with the id exists, then an update of the trust level. -/
def updateAppTrustLevel (st : DbState) (id : String) (lvl : TrustLevel) :
    ApiResult TrustLevel × DbState :=
  match st.serviceClients.find? (fun c => c.id == id) with
  | none => (.err "NOT_FOUND" ("App with ID " ++ id ++ " not found."), st)
  | some _ =>
    let st' := { st with serviceClients :=
      st.serviceClients.map (fun c => if c.id == id then { c with trustLevel := lvl } else c) }
    (.ok lvl, st')

/-- The `revokeOAuthGrant` mutation: `findUnique` by grant id (else
NOT_FOUND); NO_PERMISSION when the grant's user differs from the caller;
otherwise an update setting `revokedAt`. -/
def revokeOAuthGrant (st : DbState) (uid : String) (grantId : String) (now : Nat) :
    ApiResult Unit × DbState :=
  match st.serviceGrants.find? (fun g => g.id == grantId) with
  | none => (.err "NOT_FOUND" ("Grant with ID " ++ grantId ++ " not found."), st)
  | some grant =>
    if grant.userId != uid then
      (.err "NO_PERMISSION" "You do not have permission to revoke this grant.", st)
    else
      let st' := { st with serviceGrants :=
        st.serviceGrants.map (fun g => if g.id == grantId then { g with revokedAt := some now } else g) }
      (.ok (), st')

/-- Self-contained OBO token payload (spec data model): subject user, acting
client, embedded scope subset, issue and expiry instants. -/
structure OboToken where
  subjectUserId : String
  actorClientId : String
  scopes : List String
  issuedAt : Nat
  expiresAt : Nat
deriving DecidableEq, Repr

/-- Outcome of OBO token verification; the spec requires
NotFound/Revoked/Expired/Malformed to be kept distinct. On success the
verifier yields the delegated auth data (subject, acting client, scopes). -/
inductive VerifyResult where
  | ok (subjectUserId : String) (actor : ServiceClient) (scopes : List String)
  | malformed
  | expired
  | revoked
  | notFound
deriving DecidableEq, Repr

/-- Modelled from the spec: `verify` of the token issuer/verifier in
`@/server/auth` (module not under src/) — checks signature integrity
(abstracted as the `sigValid` flag), expiry (`now < expiresAt`, else
Expired), and re-checks the acting client's and the grant's revocation state
against the current store on every call, returning Revoked when either is
revoked. -/
def verifyOboToken (st : DbState) (now : Nat) (sigValid : Bool) (tok : OboToken) :
    VerifyResult :=
  if !sigValid then .malformed
  else if !(now < tok.expiresAt : Bool) then .expired
  else
    match st.serviceClients.find? (fun c => c.id == tok.actorClientId) with
    | none => .notFound
    | some client =>
      if client.revokedAt.isSome then .revoked
      else
        match st.serviceGrants.find? (fun g =>
            g.userId == tok.subjectUserId && g.serviceClientId == tok.actorClientId) with
        | none => .notFound
        | some grant =>
          if grant.revokedAt.isSome then .revoked
          else .ok tok.subjectUserId client.toServiceClient tok.scopes

/-! ## Helper lemmas -/

theorem mem_dedupeKeepFirstGo {α : Type} [DecidableEq α] (a : α) (seen : List α) (l : List α) :
    a ∈ dedupeKeepFirstGo seen l ↔ a ∈ l ∧ a ∉ seen := by
  induction l generalizing seen with
  | nil => simp [dedupeKeepFirstGo]
  | cons x xs ih =>
    by_cases hx : x ∈ seen
    · simp only [dedupeKeepFirstGo, if_pos hx, ih, List.mem_cons]
      constructor
      · rintro ⟨hmem, hns⟩; exact ⟨Or.inr hmem, hns⟩
      · rintro ⟨hor, hns⟩
        rcases hor with rfl | hmem
        · exact absurd hx hns
        · exact ⟨hmem, hns⟩
    · simp only [dedupeKeepFirstGo, if_neg hx, List.mem_cons, ih, not_or]
      constructor
      · rintro (rfl | ⟨hmem, _, hns⟩)
        · exact ⟨Or.inl rfl, hx⟩
        · exact ⟨Or.inr hmem, hns⟩
      · rintro ⟨rfl | hmem, hns⟩
        · exact Or.inl rfl
        · by_cases hax : a = x
          · exact Or.inl hax
          · exact Or.inr ⟨hmem, hax, hns⟩

theorem mem_dedupeKeepFirst {α : Type} [DecidableEq α] (a : α) (l : List α) :
    a ∈ dedupeKeepFirst l ↔ a ∈ l := by
  simp [dedupeKeepFirst, mem_dedupeKeepFirstGo]

/-! ## C5 -/

/-- C5: the app payload built by `dtoOAuthApp` (used by updateApp,
getAllOwnedApps, getAllApps) has no secret field and its value is independent
of the stored secret verifier, so the plaintext secret is recoverable only at
creation and rotation. -/
theorem c5_dto_independent_of_secret (entity : DbOAuthApp) (v : String) :
    dtoOAuthApp { entity with secretVerifier := v } = dtoOAuthApp entity := rfl

/-! ## C1 -/

/-- C1 (amended): for an authenticated context, the `protectedProcedure`
middleware allows an operation requiring scopes S iff S is empty, or the
context's scope list is empty (the code's proxy for a first-party request —
not the actor being null), or every scope of S is among the context's
scopes; in particular a delegated context carrying a non-empty scope list
that does not cover S is denied. -/
theorem c1_scope_enforcement (S : List String) (ctx : ReqContext)
    (h : ctx.user ≠ none) :
    (scopeMiddleware S ctx).isAllowed = true ↔
      (S = [] ∨ ctx.scopes = [] ∨ ∀ s ∈ S, s ∈ ctx.scopes) := by
  have hu : ctx.user.isNone = false := by
    cases hc : ctx.user with
    | none => exact absurd hc h
    | some _ => rfl
  by_cases hS : S = []
  · subst hS
    simp [scopeMiddleware, hu, AuthOutcome.isAllowed]
  · by_cases hsc : ctx.scopes = []
    · simp [scopeMiddleware, hu, hsc, AuthOutcome.isAllowed]
    · have hS' : 0 < S.length := List.length_pos.mpr hS
      have hsc' : 0 < ctx.scopes.length := List.length_pos.mpr hsc
      by_cases hf : S.filter (fun s => !decide (s ∈ ctx.scopes)) = []
      · have hall : ∀ s ∈ S, s ∈ ctx.scopes := by
          intro s hs
          have := (List.filter_eq_nil_iff.mp hf) s hs
          simpa using this
        simp [scopeMiddleware, hu, hS', hsc', hf, AuthOutcome.isAllowed]
        exact Or.inr (Or.inr hall)
      · have hnall : ¬ (∀ s ∈ S, s ∈ ctx.scopes) := by
          intro hall
          apply hf
          apply List.filter_eq_nil_iff.mpr
          intro s hs
          simpa using hall s hs
        have hfl : 0 < (S.filter (fun s => !decide (s ∈ ctx.scopes))).length :=
          List.length_pos.mpr hf
        simp [scopeMiddleware, hu, hS', hsc', hfl, AuthOutcome.isAllowed, hS, hsc, hnall]

/-- Concrete delegated service client used by the C1 contexts. -/
def c1Client : ServiceClient :=
  { id := "client-1", name := "Acme", description := ""
    homepageUrl := { hostname := "app.example.com", rest := "https://app.example.com" }
    iconUrl := "", redirectUris := [], scopes := ["user:read"]
    trustLevel := .UNTRUSTED, clientId := "svc_1", secretVerifier := "verifier:s0"
    createdByUserId := "owner-1", createdAt := 0, revokedAt := none }

/-- Concrete delegated request context with an empty scope list. -/
def c1CexCtx : ReqContext :=
  { user := some { id := "u1", handle := "u", displayName := "U" }
    scopes := []
    actor := some c1Client }

/-- Concrete delegated request context whose scopes cover the required set. -/
def c1WitCtx : ReqContext :=
  { user := some { id := "u1", handle := "u", displayName := "U" }
    scopes := ["user:read"]
    actor := some c1Client }

/-- C1 counterexample to the claim as stated: a delegated context (actor
non-null) with an empty scope list is allowed through an operation requiring
`user:read`, although the required set is non-empty, the actor is non-null,
and the context's scopes do not cover the requirement — refuting
"allowed iff S = ∅ ∨ actor = null ∨ S ⊆ scopes". -/
theorem c1_counterexample :
    (scopeMiddleware ["user:read"] c1CexCtx).isAllowed = true ∧
    c1CexCtx.user ≠ none ∧
    c1CexCtx.actor ≠ none ∧
    ¬ (∀ s ∈ (["user:read"] : List String), s ∈ c1CexCtx.scopes) ∧
    (["user:read"] : List String) ≠ [] := by decide

/-- Witness for the amended C1 theorem at a concrete delegated context. -/
theorem c1_scope_enforcement_witness :
    (scopeMiddleware ["user:read"] c1WitCtx).isAllowed = true :=
  (c1_scope_enforcement ["user:read"] c1WitCtx (by decide)).mpr
    (Or.inr (Or.inr (by decide)))

/-! ## C2 -/

/-- C2: for a token whose signature is valid and whose expiry has not passed,
if the store currently records the acting client as revoked, or records the
(subject, client) grant as revoked, verification fails with Revoked; the
verifier consults the current store state on every call. -/
theorem c2_revocation_blocks_verification (st : DbState) (now : Nat) (tok : OboToken)
    (hexp : now < tok.expiresAt)
    (h : (∃ c, st.serviceClients.find? (fun c => c.id == tok.actorClientId) = some c ∧
            c.revokedAt.isSome = true) ∨
         (∃ c g, st.serviceClients.find? (fun c => c.id == tok.actorClientId) = some c ∧
            c.revokedAt = none ∧
            st.serviceGrants.find? (fun g =>
              g.userId == tok.subjectUserId && g.serviceClientId == tok.actorClientId) = some g ∧
            g.revokedAt.isSome = true)) :
    verifyOboToken st now true tok = .revoked := by
  rcases h with ⟨c, hc, hrev⟩ | ⟨c, g, hc, hcact, hg, hgrev⟩
  · simp [verifyOboToken, hexp, hc, hrev]
  · simp [verifyOboToken, hexp, hc, hcact, hg, hgrev]

/-- Concrete revoked client row used by the C2 witness. -/
def c2Client : DbOAuthApp :=
  { id := "client-2", name := "Beta", description := ""
    homepageUrl := { hostname := "beta.example.com", rest := "https://beta.example.com" }
    iconUrl := "", redirectUris := [], scopes := ["user:read"]
    trustLevel := .UNTRUSTED, clientId := "svc_2", secretVerifier := "verifier:s2"
    createdByUserId := "owner-2", createdAt := 0, revokedAt := some 50
    createdByUser := { id := "owner-2", handle := "o2", displayName := "O2" } }

/-- Concrete store containing only the revoked client. -/
def c2State : DbState :=
  { serviceClients := [c2Client], serviceGrants := [] }

/-- Concrete unexpired token minted for the now-revoked client. -/
def c2Token : OboToken :=
  { subjectUserId := "u1", actorClientId := "client-2"
    scopes := ["user:read"], issuedAt := 0, expiresAt := 1000 }

/-- Witness for C2 at a concrete store and token: the token has not expired,
yet verification fails with Revoked because the client row is revoked. -/
theorem c2_revocation_blocks_verification_witness :
    verifyOboToken c2State 100 true c2Token = .revoked ∧ 100 < c2Token.expiresAt :=
  ⟨c2_revocation_blocks_verification c2State 100 c2Token (by decide)
      (Or.inl ⟨c2Client, by decide, by decide⟩),
   by decide⟩

/-! ## Equation lemmas for the router operations -/

theorem createApp_err_scopes (st : DbState) (owner : User) (inp : CreateAppInput)
    (fr : FreshClient) (h : 0 < (invalidScopesOf inp.scopes).length) :
    createApp st owner inp fr =
      (.err "ERROR" ("Unknown scopes: " ++ String.intercalate ", " (invalidScopesOf inp.scopes)),
       st) := by
  simp [createApp, h]

theorem createApp_err_redirect (st : DbState) (owner : User) (inp : CreateAppInput)
    (fr : FreshClient) (h1 : invalidScopesOf inp.scopes = [])
    (h2 : 0 < (mismatchedOf inp.homepageUrl (normalizeRedirectUris inp.redirectUris)).length) :
    createApp st owner inp fr =
      (.err "ERROR" "Redirect URIs must match the homepage domain.", st) := by
  simp [createApp, h1, h2]

theorem createApp_ok_eq (st : DbState) (owner : User) (inp : CreateAppInput)
    (fr : FreshClient) (h1 : invalidScopesOf inp.scopes = [])
    (h2 : mismatchedOf inp.homepageUrl (normalizeRedirectUris inp.redirectUris) = []) :
    createApp st owner inp fr =
      (.ok (dtoOAuthApp (createdClientRow owner inp fr), fr.clientSecret),
       { st with serviceClients := st.serviceClients ++ [createdClientRow owner inp fr] }) := by
  simp [createApp, h1, h2]

theorem updateApp_notFound (st : DbState) (uid : String) (inp : UpdateAppInput)
    (h : lookupOwnedActive st uid inp.id = none) :
    updateApp st uid inp =
      (.err "NOT_FOUND" ("App with ID " ++ inp.id ++ " not found."), st) := by
  simp [updateApp, h]

theorem updateApp_err_scopes (st : DbState) (uid : String) (inp : UpdateAppInput)
    (app : DbOAuthApp) (ss : List String)
    (h : lookupOwnedActive st uid inp.id = some app)
    (hss : inp.scopes = some ss)
    (hbad : 0 < (invalidScopesOf ss).length) :
    updateApp st uid inp =
      (.err "ERROR" ("Unknown scopes: " ++ String.intercalate ", " (invalidScopesOf ss)), st) := by
  simp [updateApp, h, hss, hbad]

theorem updateApp_eq_apply (st : DbState) (uid : String) (inp : UpdateAppInput)
    (app : DbOAuthApp)
    (h : lookupOwnedActive st uid inp.id = some app)
    (hok : ∀ ss, inp.scopes = some ss → invalidScopesOf ss = []) :
    updateApp st uid inp = updateAppApply st app inp (inp.scopes.map normalizeScopes) := by
  cases hss : inp.scopes with
  | none => simp [updateApp, h, hss]
  | some ss =>
    have hz : invalidScopesOf ss = [] := hok ss hss
    simp [updateApp, h, hss, hz]

theorem updateAppApply_err (st : DbState) (app : DbOAuthApp) (inp : UpdateAppInput)
    (ns : Option (List String))
    (h : (inp.homepageUrl.isSome ∨ inp.redirectUris.isSome) ∧
         0 < (mismatchedOf (inp.homepageUrl.getD app.homepageUrl)
                (inp.redirectUris.getD app.redirectUris)).length) :
    updateAppApply st app inp ns =
      (.err "ERROR" "Redirect URIs must match the homepage domain.", st) := by
  simp only [updateAppApply, if_pos h]

theorem updateAppApply_ok (st : DbState) (app : DbOAuthApp) (inp : UpdateAppInput)
    (ns : Option (List String))
    (h : ¬ ((inp.homepageUrl.isSome ∨ inp.redirectUris.isSome) ∧
         0 < (mismatchedOf (inp.homepageUrl.getD app.homepageUrl)
                (inp.redirectUris.getD app.redirectUris)).length)) :
    updateAppApply st app inp ns =
      (.ok (dtoOAuthApp (updatedClientRow app inp ns)),
       { st with serviceClients := st.serviceClients.map (fun c =>
           if c.id == app.id then updatedClientRow app inp ns else c) }) := by
  simp only [updateAppApply, if_neg h]

/-! ## Host-mismatch helper lemmas -/

theorem mismatchedOf_pos (h : Url) (uris : List Url)
    (hex : ∃ u ∈ uris, u.hostname ≠ h.hostname) :
    0 < (mismatchedOf h uris).length := by
  rcases hex with ⟨u, hu, hne⟩
  apply List.length_pos.mpr
  intro hnil
  have hall := List.filter_eq_nil_iff.mp hnil u hu
  simp [bne_iff_ne] at hall
  exact hne hall

theorem mismatchedOf_eq_nil_forall (h : Url) (uris : List Url)
    (hnil : mismatchedOf h uris = []) : ∀ u ∈ uris, u.hostname = h.hostname := by
  intro u hu
  have hall := List.filter_eq_nil_iff.mp hnil u hu
  simpa [bne_iff_ne] using hall

theorem mem_normalizeRedirectUris (u : Url) (l : List Url) :
    u ∈ normalizeRedirectUris l ↔ u ∈ l :=
  mem_dedupeKeepFirst u l

/-! ## Redirect-host invariant -/

/-- Invariant of a single registered client: every redirect URI's host
component equals the homepage URL's host component. -/
def redirectHostInvariant (c : DbOAuthApp) : Prop :=
  ∀ u ∈ c.redirectUris, u.hostname = c.homepageUrl.hostname

instance (c : DbOAuthApp) : Decidable (redirectHostInvariant c) := by
  unfold redirectHostInvariant; infer_instance

/-- Invariant over the store: every registered client satisfies the
redirect-host invariant. -/
def storeRedirectInvariant (st : DbState) : Prop :=
  ∀ c ∈ st.serviceClients, redirectHostInvariant c

instance (st : DbState) : Decidable (storeRedirectInvariant st) := by
  unfold storeRedirectInvariant; infer_instance

theorem eq_nil_of_not_length_pos {α : Type} {l : List α} (h : ¬ 0 < l.length) : l = [] :=
  List.eq_nil_of_length_eq_zero (by omega)

theorem storeRedirectInvariant_createApp (st : DbState) (owner : User)
    (inp : CreateAppInput) (fr : FreshClient) (hinv : storeRedirectInvariant st) :
    storeRedirectInvariant (createApp st owner inp fr).2 := by
  by_cases h1 : 0 < (invalidScopesOf inp.scopes).length
  · rw [createApp_err_scopes st owner inp fr h1]; exact hinv
  · have h1' : invalidScopesOf inp.scopes = [] := eq_nil_of_not_length_pos h1
    by_cases h2 : 0 < (mismatchedOf inp.homepageUrl (normalizeRedirectUris inp.redirectUris)).length
    · rw [createApp_err_redirect st owner inp fr h1' h2]; exact hinv
    · have h2' : mismatchedOf inp.homepageUrl (normalizeRedirectUris inp.redirectUris) = [] :=
        eq_nil_of_not_length_pos h2
      rw [createApp_ok_eq st owner inp fr h1' h2']
      intro c hc
      rcases List.mem_append.mp hc with hold | hnew
      · exact hinv c hold
      · have hc' : c = createdClientRow owner inp fr := by simpa using hnew
        subst hc'
        intro u hu
        exact mismatchedOf_eq_nil_forall _ _ h2' u hu

theorem createApp_rejects_mismatch (st : DbState) (owner : User)
    (inp : CreateAppInput) (fr : FreshClient)
    (hex : ∃ u ∈ inp.redirectUris, u.hostname ≠ inp.homepageUrl.hostname) :
    ((createApp st owner inp fr).1).isOk = false := by
  by_cases h1 : 0 < (invalidScopesOf inp.scopes).length
  · rw [createApp_err_scopes st owner inp fr h1]; rfl
  · have h1' : invalidScopesOf inp.scopes = [] := eq_nil_of_not_length_pos h1
    have h2 : 0 < (mismatchedOf inp.homepageUrl (normalizeRedirectUris inp.redirectUris)).length := by
      apply mismatchedOf_pos
      rcases hex with ⟨u, hu, hne⟩
      exact ⟨u, (mem_normalizeRedirectUris u _).mpr hu, hne⟩
    rw [createApp_err_redirect st owner inp fr h1' h2]; rfl

theorem redirectHostInvariant_updatedClientRow (app : DbOAuthApp) (inp : UpdateAppInput)
    (ns : Option (List String))
    (hc : ¬ ((inp.homepageUrl.isSome ∨ inp.redirectUris.isSome) ∧
         0 < (mismatchedOf (inp.homepageUrl.getD app.homepageUrl)
                (inp.redirectUris.getD app.redirectUris)).length))
    (happ : redirectHostInvariant app) :
    redirectHostInvariant (updatedClientRow app inp ns) := by
  intro u hu
  by_cases hsup : inp.homepageUrl.isSome ∨ inp.redirectUris.isSome
  · have hmz : mismatchedOf (inp.homepageUrl.getD app.homepageUrl)
        (inp.redirectUris.getD app.redirectUris) = [] := by
      apply eq_nil_of_not_length_pos
      intro hpos
      exact hc ⟨hsup, hpos⟩
    have hall := mismatchedOf_eq_nil_forall _ _ hmz
    cases hris : inp.redirectUris with
    | some rs =>
      have hu' : u ∈ normalizeRedirectUris rs := by simpa [updatedClientRow, hris] using hu
      have humem : u ∈ rs := (mem_normalizeRedirectUris u rs).mp hu'
      have heq := hall u (by simpa [hris] using humem)
      simpa [updatedClientRow] using heq
    | none =>
      have hu' : u ∈ app.redirectUris := by simpa [updatedClientRow, hris] using hu
      have heq := hall u (by simpa [hris] using hu')
      simpa [updatedClientRow] using heq
  · push_neg at hsup
    obtain ⟨hh, hr⟩ := hsup
    have hh' : inp.homepageUrl = none := Option.not_isSome_iff_eq_none.mp hh
    have hr' : inp.redirectUris = none := Option.not_isSome_iff_eq_none.mp hr
    have hu' : u ∈ app.redirectUris := by simpa [updatedClientRow, hr'] using hu
    have heq := happ u hu'
    simpa [updatedClientRow, hh'] using heq

theorem storeRedirectInvariant_updateAppApply (st : DbState) (app : DbOAuthApp)
    (inp : UpdateAppInput) (ns : Option (List String))
    (hinv : storeRedirectInvariant st) (happ : app ∈ st.serviceClients) :
    storeRedirectInvariant (updateAppApply st app inp ns).2 := by
  by_cases hc : (inp.homepageUrl.isSome ∨ inp.redirectUris.isSome) ∧
      0 < (mismatchedOf (inp.homepageUrl.getD app.homepageUrl)
             (inp.redirectUris.getD app.redirectUris)).length
  · rw [updateAppApply_err st app inp ns hc]; exact hinv
  · rw [updateAppApply_ok st app inp ns hc]
    intro c hcmem
    rcases List.mem_map.mp hcmem with ⟨c0, hc0mem, rfl⟩
    by_cases hid : (c0.id == app.id) = true
    · rw [if_pos hid]
      exact redirectHostInvariant_updatedClientRow app inp ns hc (hinv app happ)
    · rw [if_neg hid]
      exact hinv c0 hc0mem

theorem storeRedirectInvariant_updateApp (st : DbState) (uid : String)
    (inp : UpdateAppInput) (hinv : storeRedirectInvariant st) :
    storeRedirectInvariant (updateApp st uid inp).2 := by
  cases hfind : lookupOwnedActive st uid inp.id with
  | none => rw [updateApp_notFound st uid inp hfind]; exact hinv
  | some app =>
    have happmem : app ∈ st.serviceClients := List.mem_of_find?_eq_some hfind
    cases hss : inp.scopes with
    | some ss =>
      by_cases hbad : 0 < (invalidScopesOf ss).length
      · rw [updateApp_err_scopes st uid inp app ss hfind hss hbad]; exact hinv
      · have hz : invalidScopesOf ss = [] := eq_nil_of_not_length_pos hbad
        rw [updateApp_eq_apply st uid inp app hfind
          (fun ss' h => by rw [hss] at h; cases h; exact hz)]
        exact storeRedirectInvariant_updateAppApply st app inp _ hinv happmem
    | none =>
      rw [updateApp_eq_apply st uid inp app hfind
        (fun ss' h => by rw [hss] at h; cases h)]
      exact storeRedirectInvariant_updateAppApply st app inp _ hinv happmem

theorem updateApp_rejects_merged_mismatch (st : DbState) (uid : String)
    (inp : UpdateAppInput) (app : DbOAuthApp)
    (hfind : lookupOwnedActive st uid inp.id = some app)
    (hsup : inp.homepageUrl.isSome ∨ inp.redirectUris.isSome)
    (hex : ∃ u ∈ inp.redirectUris.getD app.redirectUris,
       u.hostname ≠ (inp.homepageUrl.getD app.homepageUrl).hostname) :
    ((updateApp st uid inp).1).isOk = false := by
  cases hss : inp.scopes with
  | some ss =>
    by_cases hbad : 0 < (invalidScopesOf ss).length
    · rw [updateApp_err_scopes st uid inp app ss hfind hss hbad]; rfl
    · have hz : invalidScopesOf ss = [] := eq_nil_of_not_length_pos hbad
      rw [updateApp_eq_apply st uid inp app hfind
        (fun ss' h => by rw [hss] at h; cases h; exact hz)]
      rw [updateAppApply_err st app inp _ ⟨hsup, mismatchedOf_pos _ _ hex⟩]
      rfl
  | none =>
    rw [updateApp_eq_apply st uid inp app hfind
      (fun ss' h => by rw [hss] at h; cases h)]
    rw [updateAppApply_err st app inp _ ⟨hsup, mismatchedOf_pos _ _ hex⟩]
    rfl

/-! ## C3 -/

/-- C3: assuming every registered client satisfies the redirect-host
invariant, both `createApp` and `updateApp` preserve it over the store;
`createApp` rejects any input containing a redirect URI whose host differs
from the homepage host; and `updateApp` re-validates the invariant against
the merged state (incoming homepageUrl or existing one, incoming redirectUris
or existing ones), rejecting the update when any merged redirect URI's host
differs from the merged homepage host. -/
theorem c3_redirect_host_policy (st : DbState) (owner : User) (uid : String)
    (cinp : CreateAppInput) (fr : FreshClient) (uinp : UpdateAppInput)
    (hinv : storeRedirectInvariant st) :
    storeRedirectInvariant (createApp st owner cinp fr).2 ∧
    ((∃ u ∈ cinp.redirectUris, u.hostname ≠ cinp.homepageUrl.hostname) →
        ((createApp st owner cinp fr).1).isOk = false) ∧
    storeRedirectInvariant (updateApp st uid uinp).2 ∧
    (∀ app, lookupOwnedActive st uid uinp.id = some app →
        (uinp.homepageUrl.isSome ∨ uinp.redirectUris.isSome) →
        (∃ u ∈ uinp.redirectUris.getD app.redirectUris,
            u.hostname ≠ (uinp.homepageUrl.getD app.homepageUrl).hostname) →
        ((updateApp st uid uinp).1).isOk = false) :=
  ⟨storeRedirectInvariant_createApp st owner cinp fr hinv,
   fun hex => createApp_rejects_mismatch st owner cinp fr hex,
   storeRedirectInvariant_updateApp st uid uinp hinv,
   fun app hfind hsup hex => updateApp_rejects_merged_mismatch st uid uinp app hfind hsup hex⟩

/-- Concrete compliant client row used by the C3/C4 witnesses. -/
def c3Client : DbOAuthApp :=
  { id := "client-3", name := "Gamma", description := ""
    homepageUrl := { hostname := "app.example.com", rest := "https://app.example.com" }
    iconUrl := ""
    redirectUris := [{ hostname := "app.example.com", rest := "https://app.example.com/cb" }]
    scopes := ["timelapse:read"]
    trustLevel := .UNTRUSTED, clientId := "svc_3", secretVerifier := "verifier:s3"
    createdByUserId := "owner-3", createdAt := 0, revokedAt := none
    createdByUser := { id := "owner-3", handle := "o3", displayName := "O3" } }

/-- Concrete store for the C3 witness. -/
def c3State : DbState := { serviceClients := [c3Client], serviceGrants := [] }

/-- Concrete owner for the C3 witness. -/
def c3Owner : User := { id := "owner-3", handle := "o3", displayName := "O3" }

/-- Creation input whose redirect URI host (`evil.com`) differs from the
homepage host (`app.example.com`). -/
def c3BadCreate : CreateAppInput :=
  { name := "Delta", description := ""
    homepageUrl := { hostname := "app.example.com", rest := "https://app.example.com" }
    iconUrl := ""
    redirectUris := [{ hostname := "evil.com", rest := "https://evil.com/cb" }]
    scopes := ["timelapse:read"] }

/-- Fresh identifiers for the C3 witness. -/
def c3Fresh : FreshClient :=
  { id := "client-4", clientId := "svc_4", clientSecret := "s4", now := 7 }

/-- Update supplying only a mismatched redirect URI against the existing
homepage of `c3Client`. -/
def c3BadUpdate : UpdateAppInput :=
  { id := "client-3"
    redirectUris := some [{ hostname := "evil.com", rest := "https://evil.com/cb" }] }

/-- Witness for C3 at concrete inputs: the store satisfies the invariant,
the mismatched creation is rejected, the state after the rejected creation
still satisfies the invariant, and the mismatched update against the merged
state (existing homepage, incoming redirect) is rejected. -/
theorem c3_redirect_host_policy_witness :
    storeRedirectInvariant c3State ∧
    ((createApp c3State c3Owner c3BadCreate c3Fresh).1).isOk = false ∧
    storeRedirectInvariant (createApp c3State c3Owner c3BadCreate c3Fresh).2 ∧
    ((updateApp c3State "owner-3" c3BadUpdate).1).isOk = false := by
  have h := c3_redirect_host_policy c3State c3Owner "owner-3" c3BadCreate c3Fresh c3BadUpdate
    (by decide)
  exact ⟨by decide, h.2.1 (by decide), h.1,
    h.2.2.2 c3Client (by decide) (by decide) (by decide)⟩

/-! ## C4 -/

/-- Invariant over the store: every registered client's scope set is a
subset of the scope catalog. -/
def storeScopeInvariant (st : DbState) : Prop :=
  ∀ c ∈ st.serviceClients, ∀ s ∈ c.scopes, s ∈ getAllOAuthScopes

instance (st : DbState) : Decidable (storeScopeInvariant st) := by
  unfold storeScopeInvariant; infer_instance

theorem invalidScopesOf_eq_nil_forall (requested : List String)
    (h : invalidScopesOf requested = []) :
    ∀ s ∈ normalizeScopes requested, s ∈ getAllOAuthScopes := by
  intro s hs
  have hmem := List.filter_eq_nil_iff.mp h s hs
  simpa using hmem

theorem storeScopeInvariant_createApp (st : DbState) (owner : User)
    (inp : CreateAppInput) (fr : FreshClient) (hinv : storeScopeInvariant st) :
    storeScopeInvariant (createApp st owner inp fr).2 := by
  by_cases h1 : 0 < (invalidScopesOf inp.scopes).length
  · rw [createApp_err_scopes st owner inp fr h1]; exact hinv
  · have h1' : invalidScopesOf inp.scopes = [] := eq_nil_of_not_length_pos h1
    by_cases h2 : 0 < (mismatchedOf inp.homepageUrl (normalizeRedirectUris inp.redirectUris)).length
    · rw [createApp_err_redirect st owner inp fr h1' h2]; exact hinv
    · have h2' : mismatchedOf inp.homepageUrl (normalizeRedirectUris inp.redirectUris) = [] :=
        eq_nil_of_not_length_pos h2
      rw [createApp_ok_eq st owner inp fr h1' h2']
      intro c hc
      rcases List.mem_append.mp hc with hold | hnew
      · exact hinv c hold
      · have hc' : c = createdClientRow owner inp fr := by simpa using hnew
        subst hc'
        intro s hs
        exact invalidScopesOf_eq_nil_forall inp.scopes h1' s hs

theorem storeScopeInvariant_updateAppApply (st : DbState) (app : DbOAuthApp)
    (inp : UpdateAppInput) (ns : Option (List String))
    (hinv : storeScopeInvariant st) (happ : app ∈ st.serviceClients)
    (hns : ∀ l, ns = some l → ∀ s ∈ l, s ∈ getAllOAuthScopes) :
    storeScopeInvariant (updateAppApply st app inp ns).2 := by
  by_cases hc : (inp.homepageUrl.isSome ∨ inp.redirectUris.isSome) ∧
      0 < (mismatchedOf (inp.homepageUrl.getD app.homepageUrl)
             (inp.redirectUris.getD app.redirectUris)).length
  · rw [updateAppApply_err st app inp ns hc]; exact hinv
  · rw [updateAppApply_ok st app inp ns hc]
    intro c hcmem
    rcases List.mem_map.mp hcmem with ⟨c0, hc0mem, rfl⟩
    by_cases hid : (c0.id == app.id) = true
    · rw [if_pos hid]
      intro s hs
      cases hns' : ns with
      | some l => exact hns l hns' s (by simpa [updatedClientRow, hns'] using hs)
      | none => exact hinv app happ s (by simpa [updatedClientRow, hns'] using hs)
    · rw [if_neg hid]
      exact hinv c0 hc0mem

theorem storeScopeInvariant_updateApp (st : DbState) (uid : String)
    (inp : UpdateAppInput) (hinv : storeScopeInvariant st) :
    storeScopeInvariant (updateApp st uid inp).2 := by
  cases hfind : lookupOwnedActive st uid inp.id with
  | none => rw [updateApp_notFound st uid inp hfind]; exact hinv
  | some app =>
    have happmem : app ∈ st.serviceClients := List.mem_of_find?_eq_some hfind
    cases hss : inp.scopes with
    | some ss =>
      by_cases hbad : 0 < (invalidScopesOf ss).length
      · rw [updateApp_err_scopes st uid inp app ss hfind hss hbad]; exact hinv
      · have hz : invalidScopesOf ss = [] := eq_nil_of_not_length_pos hbad
        rw [updateApp_eq_apply st uid inp app hfind
          (fun ss' h => by rw [hss] at h; cases h; exact hz)]
        apply storeScopeInvariant_updateAppApply st app inp _ hinv happmem
        intro l hl
        rw [hss] at hl
        have hl' : some (normalizeScopes ss) = some l := hl
        cases hl'
        exact invalidScopesOf_eq_nil_forall ss hz
    | none =>
      rw [updateApp_eq_apply st uid inp app hfind
        (fun ss' h => by rw [hss] at h; cases h)]
      apply storeScopeInvariant_updateAppApply st app inp _ hinv happmem
      intro l hl
      rw [hss] at hl
      exact Option.noConfusion hl

/-- C4: when the normalized requested scope list of a `createApp` or
`updateApp` call contains entries absent from the scope catalog, the
operation fails with an error whose message lists every unknown entry and
the store is returned unchanged (no partial write); consequently both
operations preserve the invariant that every stored scope set is a subset of
the catalog. -/
theorem c4_scope_catalog_policy (st : DbState) (owner : User) (uid : String)
    (cinp : CreateAppInput) (fr : FreshClient) (uinp : UpdateAppInput)
    (hinv : storeScopeInvariant st) :
    (0 < (invalidScopesOf cinp.scopes).length →
       createApp st owner cinp fr =
         (.err "ERROR" ("Unknown scopes: " ++ String.intercalate ", " (invalidScopesOf cinp.scopes)),
          st)) ∧
    (∀ app ss, lookupOwnedActive st uid uinp.id = some app →
        uinp.scopes = some ss → 0 < (invalidScopesOf ss).length →
        updateApp st uid uinp =
          (.err "ERROR" ("Unknown scopes: " ++ String.intercalate ", " (invalidScopesOf ss)), st)) ∧
    storeScopeInvariant (createApp st owner cinp fr).2 ∧
    storeScopeInvariant (updateApp st uid uinp).2 :=
  ⟨fun h => createApp_err_scopes st owner cinp fr h,
   fun app ss hfind hss hbad => updateApp_err_scopes st uid uinp app ss hfind hss hbad,
   storeScopeInvariant_createApp st owner cinp fr hinv,
   storeScopeInvariant_updateApp st uid uinp hinv⟩

/-- Creation input requesting two unknown scopes (and one known one). -/
def c4BadCreate : CreateAppInput :=
  { name := "Epsilon", description := ""
    homepageUrl := { hostname := "app.example.com", rest := "https://app.example.com" }
    iconUrl := ""
    redirectUris := []
    scopes := ["bogus:read", "timelapse:read", "made:up"] }

/-- Witness for C4 at concrete inputs: both unknown entries (`bogus:read`,
`made:up`) appear in the error message, the store is unchanged, and the
post-states satisfy the catalog-subset invariant. -/
theorem c4_scope_catalog_policy_witness :
    createApp c3State c3Owner c4BadCreate c3Fresh =
      (.err "ERROR" "Unknown scopes: bogus:read, made:up", c3State) ∧
    storeScopeInvariant (createApp c3State c3Owner c4BadCreate c3Fresh).2 := by
  have h := c4_scope_catalog_policy c3State c3Owner "owner-3" c4BadCreate c3Fresh
    { id := "client-3" } (by decide)
  refine ⟨?_, h.2.2.1⟩
  have he := h.1 (by decide)
  rw [he]
  decide

/-! ## C6 -/

/-- Concrete active client owned by `alice`, used by the C6 counterexample. -/
def c6Client : DbOAuthApp :=
  { id := "app-a", name := "Alpha", description := ""
    homepageUrl := { hostname := "app.example.com", rest := "https://app.example.com" }
    iconUrl := "", redirectUris := [], scopes := []
    trustLevel := .UNTRUSTED, clientId := "svc_a", secretVerifier := "verifier:sa"
    createdByUserId := "alice", createdAt := 0, revokedAt := none
    createdByUser := { id := "alice", handle := "alice", displayName := "Alice" } }

/-- Concrete store holding only `c6Client`. -/
def c6State : DbState := { serviceClients := [c6Client], serviceGrants := [] }

/-- C6 counterexample: the client `app-a` exists, is not revoked, and is not
owned by `bob`, yet both updateApp and rotateAppSecret called by `bob` fail
with NOT_FOUND — not with the NO_PERMISSION the claim requires for an
existing client owned by someone else. -/
theorem c6_counterexample :
    (∃ c ∈ c6State.serviceClients,
        c.id = "app-a" ∧ c.revokedAt = none ∧ c.createdByUserId ≠ "bob") ∧
    ((updateApp c6State "bob" { id := "app-a" }).1).errCode = some "NOT_FOUND" ∧
    ((rotateAppSecret c6State "bob" "app-a" "fresh").1).errCode = some "NOT_FOUND" := by
  decide

/-- C6 (amended): updateApp and rotateAppSecret fail with NOT_FOUND (and
leave the store unchanged) whenever no active client with the given id owned
by the requester exists — covering a missing client, a revoked client, and an
existing client owned by another user alike; neither operation ever
distinguishes the last case with NO_PERMISSION. -/
theorem c6_owner_scoped_not_found (st : DbState) (uid : String) (uinp : UpdateAppInput)
    (fresh : String)
    (h : ∀ c ∈ st.serviceClients,
        ¬ (c.id = uinp.id ∧ c.createdByUserId = uid ∧ c.revokedAt = none)) :
    updateApp st uid uinp =
      (.err "NOT_FOUND" ("App with ID " ++ uinp.id ++ " not found."), st) ∧
    rotateAppSecret st uid uinp.id fresh =
      (.err "NOT_FOUND" ("App with ID " ++ uinp.id ++ " not found."), st) := by
  have hn : lookupOwnedActive st uid uinp.id = none := by
    apply List.find?_eq_none.mpr
    intro c hc
    have hnc := h c hc
    simp only [Bool.and_eq_true, beq_iff_eq, Option.isNone_iff_eq_none]
    tauto
  exact ⟨updateApp_notFound st uid uinp hn, by simp [rotateAppSecret, hn]⟩

/-- Witness for the amended C6 theorem: `bob` calling both operations on the
existing, active client owned by `alice` gets NOT_FOUND and the store stays
unchanged. -/
theorem c6_owner_scoped_not_found_witness :
    updateApp c6State "bob" { id := "app-a" } =
      (.err "NOT_FOUND" ("App with ID " ++ "app-a" ++ " not found."), c6State) ∧
    rotateAppSecret c6State "bob" "app-a" "fresh" =
      (.err "NOT_FOUND" ("App with ID " ++ "app-a" ++ " not found."), c6State) :=
  c6_owner_scoped_not_found c6State "bob" { id := "app-a" } "fresh" (by decide)

/-! ## C7 -/

/-- Creation input whose single redirect URI lives on `evil.com`. -/
def c7BadCreateA : CreateAppInput :=
  { name := "Zeta", description := ""
    homepageUrl := { hostname := "app.example.com", rest := "https://app.example.com" }
    iconUrl := ""
    redirectUris := [{ hostname := "evil.com", rest := "https://evil.com/cb" }]
    scopes := ["timelapse:read"] }

/-- Creation input whose single redirect URI lives on `attacker.net`. -/
def c7BadCreateB : CreateAppInput :=
  { name := "Zeta", description := ""
    homepageUrl := { hostname := "app.example.com", rest := "https://app.example.com" }
    iconUrl := ""
    redirectUris := [{ hostname := "attacker.net", rest := "https://attacker.net/cb" }]
    scopes := ["timelapse:read"] }

/-- C7 counterexample: two creations failing on different offending redirect
URIs return the very same error value — the generic ERROR kind with the fixed
message — so the error cannot carry the list of offending URIs the claim
requires. -/
theorem c7_counterexample :
    (createApp c3State c3Owner c7BadCreateA c3Fresh).1 =
      .err "ERROR" "Redirect URIs must match the homepage domain." ∧
    (createApp c3State c3Owner c7BadCreateB c3Fresh).1 =
      (createApp c3State c3Owner c7BadCreateA c3Fresh).1 ∧
    mismatchedOf c7BadCreateA.homepageUrl c7BadCreateA.redirectUris ≠
      mismatchedOf c7BadCreateB.homepageUrl c7BadCreateB.redirectUris := by
  decide

/-- C7 (amended): when createApp or updateApp fails the redirect-host check,
the returned error is the generic ERROR kind with the fixed message
"Redirect URIs must match the homepage domain.", independent of (and hence
not listing) the offending URIs. -/
theorem c7_redirect_mismatch_error_fixed (st : DbState) (owner : User) (uid : String)
    (cinp : CreateAppInput) (fr : FreshClient) (uinp : UpdateAppInput) :
    (invalidScopesOf cinp.scopes = [] →
      0 < (mismatchedOf cinp.homepageUrl (normalizeRedirectUris cinp.redirectUris)).length →
      (createApp st owner cinp fr).1 =
        .err "ERROR" "Redirect URIs must match the homepage domain.") ∧
    (∀ app, lookupOwnedActive st uid uinp.id = some app →
      (∀ ss, uinp.scopes = some ss → invalidScopesOf ss = []) →
      (uinp.homepageUrl.isSome ∨ uinp.redirectUris.isSome) →
      0 < (mismatchedOf (uinp.homepageUrl.getD app.homepageUrl)
             (uinp.redirectUris.getD app.redirectUris)).length →
      (updateApp st uid uinp).1 =
        .err "ERROR" "Redirect URIs must match the homepage domain.") := by
  constructor
  · intro h1 h2
    rw [createApp_err_redirect st owner cinp fr h1 h2]
  · intro app hfind hok hsup hpos
    rw [updateApp_eq_apply st uid uinp app hfind hok,
        updateAppApply_err st app uinp _ ⟨hsup, hpos⟩]

/-- Witness for the amended C7 theorem at a concrete mismatched creation. -/
theorem c7_redirect_mismatch_error_fixed_witness :
    (createApp c3State c3Owner c7BadCreateA c3Fresh).1 =
      .err "ERROR" "Redirect URIs must match the homepage domain." :=
  (c7_redirect_mismatch_error_fixed c3State c3Owner "owner-3" c7BadCreateA c3Fresh
    { id := "client-3" }).1 (by decide) (by decide)

/-! ## C8 -/

/-- C8: a successful revokeApp call on an active client owned by the caller
returns ok and rewrites the store so that the rows with the target id get
`revokedAt` set to the current time and nothing else: every other field and
every other row is untouched, the row count is preserved (no deletion), and
the grants table is unchanged. -/
theorem c8_revokeApp_frame (st : DbState) (uid : String) (id : String) (now : Nat)
    (app : DbOAuthApp) (hfind : lookupOwnedActive st uid id = some app) :
    (revokeApp st uid id now).1 = .ok () ∧
    (revokeApp st uid id now).2.serviceClients =
      st.serviceClients.map (fun c =>
        if c.id == id then { c with revokedAt := some now } else c) ∧
    (revokeApp st uid id now).2.serviceGrants = st.serviceGrants ∧
    (revokeApp st uid id now).2.serviceClients.length = st.serviceClients.length := by
  refine ⟨?_, ?_, ?_, ?_⟩ <;> simp [revokeApp, hfind]

/-- Concrete grant tied to `c6Client`, used by the C8/C9 witnesses. -/
def c8Grant : ServiceGrant :=
  { id := "grant-1", userId := "carol", serviceClientId := "app-a"
    scopes := ["timelapse:read"], createdAt := 1, lastUsedAt := none, revokedAt := none }

/-- Concrete store holding the active client `app-a` and one grant. -/
def c8State : DbState := { serviceClients := [c6Client], serviceGrants := [c8Grant] }

/-- Witness for C8: `alice` revokes her own active client; the call succeeds,
only `revokedAt` changes on the target row, and the grant table is intact. -/
theorem c8_revokeApp_frame_witness :
    (revokeApp c8State "alice" "app-a" 99).1 = .ok () ∧
    (revokeApp c8State "alice" "app-a" 99).2.serviceClients =
      c8State.serviceClients.map (fun c =>
        if c.id == "app-a" then { c with revokedAt := some 99 } else c) ∧
    (revokeApp c8State "alice" "app-a" 99).2.serviceGrants = c8State.serviceGrants ∧
    (revokeApp c8State "alice" "app-a" 99).2.serviceClients.length =
      c8State.serviceClients.length :=
  c8_revokeApp_frame c8State "alice" "app-a" 99 c6Client (by decide)

/-! ## C9 -/

/-- C9: revokeOAuthGrant fails with NOT_FOUND (store unchanged) when no grant
with the given id exists; fails with NO_PERMISSION (store unchanged) when the
grant exists but belongs to a different user; and otherwise succeeds, setting
`revokedAt` on the matching grant rows and touching nothing else. -/
theorem c9_revokeOAuthGrant_policy (st : DbState) (uid : String) (grantId : String)
    (now : Nat) :
    (st.serviceGrants.find? (fun g => g.id == grantId) = none →
       revokeOAuthGrant st uid grantId now =
         (.err "NOT_FOUND" ("Grant with ID " ++ grantId ++ " not found."), st)) ∧
    (∀ g, st.serviceGrants.find? (fun g => g.id == grantId) = some g → g.userId ≠ uid →
       revokeOAuthGrant st uid grantId now =
         (.err "NO_PERMISSION" "You do not have permission to revoke this grant.", st)) ∧
    (∀ g, st.serviceGrants.find? (fun g => g.id == grantId) = some g → g.userId = uid →
       revokeOAuthGrant st uid grantId now =
         (.ok (), { st with serviceGrants := st.serviceGrants.map (fun g =>
             if g.id == grantId then { g with revokedAt := some now } else g) })) := by
  refine ⟨fun h => by simp [revokeOAuthGrant, h], ?_, ?_⟩
  · intro g hg hne
    have hb : (g.userId != uid) = true := bne_iff_ne.mpr hne
    simp [revokeOAuthGrant, hg, hb]
  · intro g hg heq
    simp [revokeOAuthGrant, hg, heq]

/-- Witness for C9: `bob` attempts to revoke `carol`'s grant and gets
NO_PERMISSION with the store unchanged; `carol` revoking her own grant
succeeds and sets `revokedAt`. -/
theorem c9_revokeOAuthGrant_policy_witness :
    revokeOAuthGrant c8State "bob" "grant-1" 5 =
      (.err "NO_PERMISSION" "You do not have permission to revoke this grant.", c8State) ∧
    revokeOAuthGrant c8State "carol" "grant-1" 5 =
      (.ok (), { c8State with serviceGrants := c8State.serviceGrants.map (fun g =>
          if g.id == "grant-1" then { g with revokedAt := some 5 } else g) }) :=
  ⟨(c9_revokeOAuthGrant_policy c8State "bob" "grant-1" 5).2.1 c8Grant (by decide) (by decide),
   (c9_revokeOAuthGrant_policy c8State "carol" "grant-1" 5).2.2 c8Grant (by decide) (by decide)⟩

/-! ## C10 -/

/-- C10: the administrative updateAppTrustLevel performs no revocation check:
whenever any row with the given id exists — even one whose `revokedAt` is set
— the call succeeds and updates the trust level, failing with NOT_FOUND only
when no row with the id exists; by contrast the owner-facing rotateAppSecret
fails with NOT_FOUND whenever every row with the id is revoked. -/
theorem c10_trust_level_ignores_revocation (st : DbState) (id : String) (lvl : TrustLevel)
    (uid : String) (fresh : String) :
    (st.serviceClients.find? (fun c => c.id == id) = none →
       updateAppTrustLevel st id lvl =
         (.err "NOT_FOUND" ("App with ID " ++ id ++ " not found."), st)) ∧
    (∀ app, st.serviceClients.find? (fun c => c.id == id) = some app →
       updateAppTrustLevel st id lvl =
         (.ok lvl, { st with serviceClients := st.serviceClients.map (fun c =>
             if c.id == id then { c with trustLevel := lvl } else c) })) ∧
    ((∀ c ∈ st.serviceClients, c.id = id → c.revokedAt ≠ none) →
       (rotateAppSecret st uid id fresh).1 =
         .err "NOT_FOUND" ("App with ID " ++ id ++ " not found.")) := by
  refine ⟨fun h => by simp [updateAppTrustLevel, h],
          fun app h => by simp [updateAppTrustLevel, h], ?_⟩
  intro hrev
  have hn : lookupOwnedActive st uid id = none := by
    apply List.find?_eq_none.mpr
    intro c hc
    simp only [Bool.and_eq_true, beq_iff_eq, Option.isNone_iff_eq_none]
    intro hcon
    have hid : c.id = id := by tauto
    have hnone : c.revokedAt = none := by tauto
    exact hrev c hc hid hnone
  simp [rotateAppSecret, hn]

/-- Concrete revoked client row for the C10 witness. -/
def c10Client : DbOAuthApp :=
  { id := "app-r", name := "Rho", description := ""
    homepageUrl := { hostname := "rho.example.com", rest := "https://rho.example.com" }
    iconUrl := "", redirectUris := [], scopes := []
    trustLevel := .UNTRUSTED, clientId := "svc_r", secretVerifier := "verifier:sr"
    createdByUserId := "alice", createdAt := 0, revokedAt := some 10
    createdByUser := { id := "alice", handle := "alice", displayName := "Alice" } }

/-- Concrete store holding only the revoked client. -/
def c10State : DbState := { serviceClients := [c10Client], serviceGrants := [] }

/-- Witness for C10: on a store whose only `app-r` row is revoked, the
administrative trust-level update succeeds while the owner's secret rotation
fails with NOT_FOUND. -/
theorem c10_trust_level_ignores_revocation_witness :
    c10Client.revokedAt ≠ none ∧
    updateAppTrustLevel c10State "app-r" .TRUSTED =
      (.ok .TRUSTED, { c10State with serviceClients := c10State.serviceClients.map (fun c =>
          if c.id == "app-r" then { c with trustLevel := .TRUSTED } else c) }) ∧
    (rotateAppSecret c10State "alice" "app-r" "fresh").1 =
      .err "NOT_FOUND" ("App with ID " ++ "app-r" ++ " not found.") :=
  ⟨by decide,
   (c10_trust_level_ignores_revocation c10State "app-r" .TRUSTED "alice" "fresh").2.1
     c10Client (by decide),
   (c10_trust_level_ignores_revocation c10State "app-r" .TRUSTED "alice" "fresh").2.2
     (by decide)⟩
